import Mathlib

/-!
Verification of the zip-revelio ZIP analyzer against its specification.

The repository carries several parallel implementation generations.  Each
definition below is a shallow embedding of one concrete source item and is
annotated with the file (and function) it is translated from.  Machine
integers (u16/u32/u64/usize) are modelled as `Nat`; the modelled code never
overflows them on the inputs considered.  Byte buffers are `List Nat`
(each element a byte value).  Fallible Rust functions returning
`Result<T, E>` become `Except E T`; a Rust panic (`unimplemented!`) is
modelled as `Option.none` on the affected paths.

External crates (`flate2`'s DeflateDecoder, `byte_unit` display, float
formatting) are not code of this repository; they enter the model as
explicit function parameters, so every theorem quantifies over them.
-/

set_option maxRecDepth 40000

/-! ### CRC-32 (IEEE, reflected, polynomial 0xEDB88320)

The sources call `crc32fast::hash` / `crc32fast::Hasher`, which compute the
standard CRC-32 used by ZIP.  This is the textbook bitwise definition of
that function. -/

/-- One shift-and-conditionally-xor round of the reflected CRC-32. -/
def crc32_round (c : Nat) : Nat :=
  if c % 2 = 1 then (c / 2) ^^^ 0xEDB88320 else c / 2

/-- Absorb one byte into a CRC-32 accumulator (eight rounds). -/
def crc32_byte (crc b : Nat) : Nat :=
  crc32_round (crc32_round (crc32_round (crc32_round
    (crc32_round (crc32_round (crc32_round (crc32_round (crc ^^^ b))))))))

/-- CRC-32 of a byte sequence, as computed by `crc32fast::hash`. -/
def crc32 (data : List Nat) : Nat :=
  (data.foldl crc32_byte 0xFFFFFFFF) ^^^ 0xFFFFFFFF

/-! ### The `processor.rs` / `stats.rs` / `reader.rs` / `buffer.rs` crate

These four files form one crate (they import each other through the same
crate root).  The crate root itself (declaring `ZipEntry`,
`CompressionMethod`, `constants`, `error::ZipError`) is absent from `src/`;
those declarations are reconstructed below from their uses in the four
files and, where noted, from the spec. -/

namespace proc

/-- Compression method of the processor crate.  `processor.rs` matches a
`ZipEntry.method` exhaustively against exactly the two arms
`CompressionMethod::Store` and `CompressionMethod::Deflate`
(`process_entry`, src/src/processor.rs:102-148), so the enum has exactly
these two constructors. -/
inductive CompressionMethod where
  | Store : CompressionMethod
  | Deflate : CompressionMethod
deriving DecidableEq

/-- Modelled from the spec: the crate-root error enum is missing from
`src/`.  Constructors are reconstructed from their construction sites in
src/src/processor.rs (`Processing`, `ThreadPool`, `TaskChannel`),
src/src/buffer.rs (`Memory`) and src/src/reader.rs
(`EndOfCentralDirectoryNotFound`, `InvalidSignature`, I/O conversions). -/
inductive ZipError where
  | Io : ZipError
  | Processing (msg : String) : ZipError
  | Memory (msg : String) : ZipError
  | ThreadPool (msg : String) : ZipError
  | TaskChannel (msg : String) : ZipError
  | EndOfCentralDirectoryNotFound : ZipError
  | InvalidSignature (sig : Nat) : ZipError
deriving DecidableEq

/-- Entry record of the processor crate; fields taken from the literal
constructions in src/src/reader.rs:184-191 and
src/src/processor.rs:183-192. -/
structure ZipEntry where
  name : String
  size : Nat
  compressed_size : Nat
  method : CompressionMethod
  crc32 : Nat
  header_offset : Nat
deriving DecidableEq

/-- src/src/stats.rs:41-48 `SizeRange`. -/
inductive SizeRange where
  | Tiny | Small | Medium | Large | VeryLarge | Huge
deriving DecidableEq

/-- src/src/stats.rs:52-61 `SizeRange::from_size` (the `0..=1024` style
range match rendered as an if-chain). -/
def SizeRange.from_size (size : Nat) : SizeRange :=
  if size ≤ 1024 then .Tiny
  else if size ≤ 10240 then .Small
  else if size ≤ 102400 then .Medium
  else if size ≤ 1048576 then .Large
  else if size ≤ 10485760 then .VeryLarge
  else .Huge

/-- Bump a key's count in an association map, mirroring DashMap's
`entry(k).and_modify(|c| *c += 1).or_insert(1)`. -/
def bump_count {α : Type} [DecidableEq α] : List (α × Nat) → α → List (α × Nat)
  | [], k => [(k, 1)]
  | (a, c) :: rest, k =>
    if a = k then (a, c + 1) :: rest else (a, c) :: bump_count rest k

/-- State of src/src/stats.rs `Stats`.  `start_time`, `duration`,
`current_progress`, `total_items`, `peak_memory` and `processing_rates`
are wall-clock/progress bookkeeping with no bearing on the claims and are
not carried; the DashMaps are association lists. -/
structure Stats where
  total_files : Nat
  total_size : Nat
  compressed_size : Nat
  methods : List (CompressionMethod × Nat)
  size_distribution : List (SizeRange × Nat)
  errors : List ZipError
deriving DecidableEq

/-- src/src/stats.rs:95-97 `Stats::increment_files`. -/
def Stats.increment_files (s : Stats) : Stats :=
  { s with total_files := s.total_files + 1 }

/-- src/src/stats.rs:100-116 `Stats::add_size` (the `processing_rates`
update is wall-clock-driven and not modelled). -/
def Stats.add_size (s : Stats) (size : Nat) : Stats :=
  { s with
    total_size := s.total_size + size
    size_distribution := bump_count s.size_distribution (SizeRange.from_size size) }

/-- src/src/stats.rs:119-121 `Stats::add_compressed_size`. -/
def Stats.add_compressed_size (s : Stats) (size : Nat) : Stats :=
  { s with compressed_size := s.compressed_size + size }

/-- src/src/stats.rs:124-128 `Stats::record_method`. -/
def Stats.record_method (s : Stats) (method : CompressionMethod) : Stats :=
  { s with methods := bump_count s.methods method }

/-- src/src/stats.rs:131-134 `Stats::record_error`. -/
def Stats.record_error (s : Stats) (e : ZipError) : Stats :=
  { s with errors := s.errors ++ [e] }

/-- src/src/stats.rs:204-212 `Stats::compression_ratio`, the `f64` division
rendered in exact rational arithmetic (the operation is exact on the small
values used in the theorems below). -/
def stats_compr_percentage (total compressed : Nat) : ℚ :=
  if total = 0 then 1 else (compressed : ℚ) / (total : ℚ)

/-- Lowercase hexadecimal rendering, as Rust's `{:x}` format. -/
def hex_lower (n : Nat) : String := (Nat.toDigits 16 n).asString

/-- Message of src/src/processor.rs:106-109 (Store size mismatch). -/
def store_size_mismatch_msg (name : String) (expected got : Nat) : String :=
  "Size mismatch for " ++ name ++ ": expected " ++ toString expected ++
    ", got " ++ toString got

/-- Message of src/src/processor.rs:115-118 and 142-145 (CRC mismatch). -/
def crc_mismatch_msg (name : String) (expected got : Nat) : String :=
  "CRC mismatch for " ++ name ++ ": expected " ++ hex_lower expected ++
    ", got " ++ hex_lower got

/-- Message of src/src/processor.rs:127-129 (decompression failure). -/
def decompression_failed_msg (name msg : String) : String :=
  "Decompression failed for " ++ name ++ ": " ++ msg

/-- Message of src/src/processor.rs:133-136 (Deflate size mismatch). -/
def deflate_size_mismatch_msg (name : String) (expected got : Nat) : String :=
  "Decompressed size mismatch for " ++ name ++ ": expected " ++
    toString expected ++ ", got " ++ toString got

/-- src/src/processor.rs:94-151 `Processor::process_entry`.  `inflate`
stands for flate2's `DeflateDecoder::read_to_end` (an external crate):
given the compressed bytes it yields the decompressed bytes or an error
message.  `data` is the entry's byte buffer (`PooledBuffer::as_bytes`).
Returns the updated shared `Stats` together with the `Result<()>`. -/
def process_entry (inflate : List Nat → Except String (List Nat))
    (stats : Stats) (entry : ZipEntry) (data : List Nat) :
    Stats × Except ZipError Unit :=
  let stats :=
    (((stats.increment_files).add_size entry.size).add_compressed_size
      entry.compressed_size).record_method entry.method
  match entry.method with
  | .Store =>
    if data.length ≠ entry.size then
      (stats, .error (.Processing
        (store_size_mismatch_msg entry.name entry.size data.length)))
    else
      let crc := crc32 data
      if crc ≠ entry.crc32 then
        (stats, .error (.Processing (crc_mismatch_msg entry.name entry.crc32 crc)))
      else (stats, .ok ())
  | .Deflate =>
    match inflate data with
    | .error e =>
      (stats, .error (.Processing (decompression_failed_msg entry.name e)))
    | .ok decompressed =>
      if decompressed.length ≠ entry.size then
        (stats, .error (.Processing
          (deflate_size_mismatch_msg entry.name entry.size decompressed.length)))
      else
        let crc := crc32 decompressed
        if crc ≠ entry.crc32 then
          (stats, .error (.Processing (crc_mismatch_msg entry.name entry.crc32 crc)))
        else (stats, .ok ())

/-! #### Buffer pool of src/src/buffer.rs -/

/-- `usize::next_power_of_two` (smallest power of two ≥ n; 1 for 0),
computed by doubling. -/
def npot_from (n : Nat) : Nat → Nat → Nat
  | 0, p => p
  | fuel + 1, p => if n ≤ p then p else npot_from n fuel (2 * p)

/-- `usize::next_power_of_two`. -/
def next_power_of_two (n : Nat) : Nat := npot_from n n 1

/-- Count of pooled buffers per size class.  `buffers: DashMap<usize,
Vec<BytesMut>>` holds cleared buffers; every buffer stored under key `k`
has capacity `k` (see `return_buffer`, src/src/buffer.rs:58-67), so a
per-class count is a complete representation. -/
def lookup_count : List (Nat × Nat) → Nat → Option Nat
  | [], _ => none
  | (k, c) :: rest, key => if k = key then some c else lookup_count rest key

/-- Replace a class count (used when popping a pooled buffer). -/
def set_count : List (Nat × Nat) → Nat → Nat → List (Nat × Nat)
  | [], _, _ => []
  | (k, c) :: rest, key, v =>
    if k = key then (k, v) :: rest else (k, c) :: set_count rest key v

/-- State of src/src/buffer.rs `BufferPool`. -/
structure BufferPool where
  buffers : List (Nat × Nat)
  total_size : Nat
  max_size : Nat
deriving DecidableEq

/-- Message of src/src/buffer.rs:46-49. -/
def pool_limit_msg (current aligned max : Nat) : String :=
  "Buffer pool size limit reached: " ++ toString current ++ " + " ++
    toString aligned ++ " > " ++ toString max

/-- src/src/buffer.rs:31-55 `BufferPool::get_buffer`.  Returns the
capacity of the buffer handed out together with the new pool state. -/
def get_buffer (p : BufferPool) (size : Nat) : Except ZipError (Nat × BufferPool) :=
  let aligned := next_power_of_two size
  match lookup_count p.buffers aligned with
  | some (c + 1) =>
    .ok (aligned, { p with buffers := set_count p.buffers aligned c })
  | _ =>
    if p.max_size < p.total_size + aligned then
      .error (.Memory (pool_limit_msg p.total_size aligned p.max_size))
    else
      .ok (aligned, { p with total_size := p.total_size + aligned })

/-- src/src/buffer.rs:58-67 `BufferPool::return_buffer` (keyed by the
returned buffer's capacity). -/
def return_buffer (p : BufferPool) (capacity : Nat) : BufferPool :=
  match lookup_count p.buffers capacity with
  | some c => { p with buffers := set_count p.buffers capacity (c + 1) }
  | none => { p with buffers := p.buffers ++ [(capacity, 1)] }

/-! #### EOCD locator of src/src/reader.rs -/

/-- ZIP end-of-central-directory signature (spec §6; also literal in
src/src/zip/reader.rs:11). -/
def END_OF_CENTRAL_DIR_SIGNATURE : Nat := 0x06054b50

/-- Modelled from the spec: the `constants` module is missing from `src/`.
Spec §6 fixes the maximum comment length at 65 535, and §4.1 has the
locator scan `min(L, 65 557)` tail bytes, i.e. 65 535 candidate
positions. -/
def MAX_COMMENT_LENGTH : Nat := 65535

/-- Little-endian u16 read at byte index `i` (out-of-range bytes read as 0;
all uses below stay in range, where Rust's `read_exact` succeeds). -/
def read_u16_le (l : List Nat) (i : Nat) : Nat :=
  l.getD i 0 + 256 * l.getD (i + 1) 0

/-- Little-endian u32 read at byte index `i` (same range convention). -/
def read_u32_le (l : List Nat) (i : Nat) : Nat :=
  l.getD i 0 + 256 * (l.getD (i + 1) 0 + 256 *
    (l.getD (i + 2) 0 + 256 * l.getD (i + 3) 0))

/-- Loop body of src/src/reader.rs:96-117
`ZipReader::find_end_of_central_directory`: `for i in 0..MAX_COMMENT_LENGTH`
reads 22 bytes at `file_size - 22 - i` and returns the first position whose
leading 4 bytes are the EOCD signature (`remaining` is the number of loop
iterations left).  When `22 + i` exceeds the file length the u64
subtraction underflows and the read fails; that path is `.error .Io` (the
source's `if pos < 0` guard on a u64 can never fire). -/
def find_eocd_loop (file : List Nat) (i : Nat) : Nat → Except ZipError Nat
  | 0 => .error .EndOfCentralDirectoryNotFound
  | remaining + 1 =>
    if file.length < 22 + i then .error .Io
    else
      let pos := file.length - 22 - i
      if read_u32_le file pos = END_OF_CENTRAL_DIR_SIGNATURE then .ok pos
      else find_eocd_loop file (i + 1) remaining

/-- src/src/reader.rs:96-117 `ZipReader::find_end_of_central_directory`. -/
def find_end_of_central_directory (file : List Nat) : Except ZipError Nat :=
  find_eocd_loop file 0 MAX_COMMENT_LENGTH

end proc

/-! ### The `lib.rs` / `zip.rs` crate (size validation) -/

namespace lzr

/-- src/src/lib.rs:3 `MAX_SIZE` (4 GiB). -/
def MAX_SIZE : Nat := 4 * 1024 * 1024 * 1024

/-- src/src/lib.rs:8-20 `Error`. -/
inductive Error where
  | SizeLimit (size : Nat) : Error
  | Io (msg : String) : Error
  | Format (msg : String) : Error
  | MemoryLimit (required limit : Nat) : Error
  | Processing (msg : String) : Error
deriving DecidableEq

/-- src/src/zip.rs:22-30 `FileZipReader::validate_size`; `len` is the
file's metadata length. -/
def validate_size (len : Nat) : Except Error Unit :=
  if MAX_SIZE < len then .error (.SizeLimit len) else .ok ()

end lzr

/-! ### The `zip/*` + `buffer/*` crate (mmap reader, entry processor,
tiered buffer pool) -/

namespace zm

/-- src/src/zip/error.rs:4-29 `ZipError` (the wrapped `io::Error` is
carried as its message string). -/
inductive ZipError where
  | Io (msg : String) : ZipError
  | Format (msg : String) : ZipError
  | UnsupportedMethod (m : Nat) : ZipError
  | NonAsciiName : ZipError
  | FileTooLarge : ZipError
  | Memory (msg : String) : ZipError
  | NoBufferAvailable : ZipError
  | Crc32Mismatch : ZipError
deriving DecidableEq

/-- src/src/buffer/pool.rs:13-18 `Buffer`.  A `Large` buffer holds only a
memory-map id. -/
inductive Buffer where
  | Small (buf : List Nat) : Buffer
  | Medium (buf : List Nat) : Buffer
  | Large (id : Nat) : Buffer
deriving DecidableEq

/-- src/src/buffer/pool.rs:21-26 `Buffer::as_slice`; on `Large` the source
is `unimplemented!` (a panic), modelled as `none`. -/
def Buffer.as_slice : Buffer → Option (List Nat)
  | .Small buf | .Medium buf => some buf
  | .Large _ => none

/-- src/src/buffer/pool.rs:28-33 `Buffer::as_mut_slice`; panics on
`Large`. -/
def Buffer.as_mut_slice : Buffer → Option (List Nat)
  | .Small buf | .Medium buf => some buf
  | .Large _ => none

/-- src/src/buffer/pool.rs:35-43 `Buffer::copy_from_slice` (clear then
extend, so the buffer's contents become `data`); panics on `Large`. -/
def Buffer.copy_from_slice : Buffer → List Nat → Option Buffer
  | .Small _, data => some (.Small data)
  | .Medium _, data => some (.Medium data)
  | .Large _, _ => none

/-- src/src/buffer/pool.rs:112-118 `BufferConfig`. -/
structure BufferConfig where
  small_size : Nat
  medium_size : Nat
  small_count : Nat
  medium_count : Nat
deriving DecidableEq

/-- src/src/buffer/pool.rs:120-129 `Default for BufferConfig`. -/
def BufferConfig.standard : BufferConfig :=
  { small_size := 64 * 1024, medium_size := 1024 * 1024
    small_count := 32, medium_count := 16 }

/-- State of src/src/buffer/pool.rs:103-110 `BufferPool`: the two
`ArrayQueue`s as front-pop lists of buffers, the large memory maps as an
id-to-size association list. -/
structure BufferPool where
  small_pool : List (List Nat)
  medium_pool : List (List Nat)
  large_maps : List (Nat × Nat)
  config : BufferConfig
  next_map_id : Nat
deriving DecidableEq

/-- src/src/buffer/pool.rs:131-161 `BufferPool::new` (pre-allocates
`small_count` zeroed small and `medium_count` zeroed medium buffers). -/
def BufferPool.new (config : BufferConfig) : BufferPool :=
  { small_pool := List.replicate config.small_count (List.replicate config.small_size 0)
    medium_pool := List.replicate config.medium_count (List.replicate config.medium_size 0)
    large_maps := []
    config := config
    next_map_id := 0 }

/-- src/src/buffer/pool.rs:163-187 `BufferPool::acquire`.  `MemoryMap::new`
(a fresh anonymous mmap of the requested size, src/src/buffer/mmap.rs:19-27)
is modelled as succeeding. -/
def BufferPool.acquire (p : BufferPool) (size : Nat) :
    Except ZipError (Buffer × BufferPool) :=
  if size ≤ p.config.small_size then
    match p.small_pool with
    | [] => .error .NoBufferAvailable
    | b :: rest => .ok (.Small b, { p with small_pool := rest })
  else if size ≤ p.config.medium_size then
    match p.medium_pool with
    | [] => .error .NoBufferAvailable
    | b :: rest => .ok (.Medium b, { p with medium_pool := rest })
  else
    .ok (.Large p.next_map_id,
      { p with large_maps := (p.next_map_id, size) :: p.large_maps
               next_map_id := p.next_map_id + 1 })

/-- Well-formedness invariant of a `buffer/pool.rs` pool: every queued
small (resp. medium) buffer has the configured small (resp. medium)
capacity.  `BufferPool::new` establishes it (src/src/buffer/pool.rs:143-153
pushes `vec![0; small_size]` / `vec![0; medium_size]`) and
`BufferPool::release` maintains it (src/src/buffer/pool.rs:189-207 re-pushes
a buffer only with the configured capacity). -/
def BufferPool.well_formed (p : BufferPool) : Prop :=
  (∀ b ∈ p.small_pool, b.length = p.config.small_size) ∧
  (∀ b ∈ p.medium_pool, b.length = p.config.medium_size)

/-- src/src/zip/entry.rs:15-26 `LocalFileHeader`. -/
structure LocalFileHeader where
  version_needed : Nat
  flags : Nat
  compression_method : Nat
  last_mod_time : Nat
  last_mod_date : Nat
  crc32 : Nat
  compressed_size : Nat
  uncompressed_size : Nat
  file_name : String
  extra_field : List Nat
deriving DecidableEq

/-- src/src/zip/entry.rs:29-33 `DataDescriptor`. -/
structure DataDescriptor where
  crc32 : Nat
  compressed_size : Nat
  uncompressed_size : Nat
deriving DecidableEq

/-- src/src/zip/entry.rs:7-12 `ZipEntry`. -/
structure ZipEntry where
  header : LocalFileHeader
  data_descriptor : Option DataDescriptor
  file_data : List Nat
deriving DecidableEq

/-- src/src/zip/entry.rs:107-114 `ProcessedEntry`. -/
structure ProcessedEntry where
  name : String
  original_size : Nat
  compressed_size : Nat
  crc32 : Nat
  method : Nat
deriving DecidableEq

/-- Rust `str::is_ascii`: every character below 128 (expressed over the
character list). -/
def is_ascii (s : String) : Bool := s.data.all fun c => c.toNat < 128

/-- src/src/zip/entry.rs:88-104 `ZipEntry::validate` (filename ASCII check,
4 GiB size check, method ∈ {0, 8}). -/
def validate (e : ZipEntry) : Except ZipError Unit :=
  if ¬ is_ascii e.header.file_name then .error .NonAsciiName
  else if 0xFFFFFFFF < e.header.uncompressed_size then .error .FileTooLarge
  else if e.header.compression_method = 0 ∨ e.header.compression_method = 8 then .ok ()
  else .error (.UnsupportedMethod e.header.compression_method)

/-- src/src/zip/entry.rs:36-86 `ZipEntry::process` (the u16 literal match
rendered as an if-chain).  `inflate` stands for flate2's
`DeflateDecoder::read_to_end`; its `io::Error` is wrapped as `ZipError::Io`
by the `?` conversion.  The whole result is `none` when the call panics
(which happens exactly when `copy_from_slice` hits a `Large` buffer). -/
def process (inflate : List Nat → Except String (List Nat))
    (e : ZipEntry) (buffer : Buffer) :
    Option (Except ZipError (ProcessedEntry × Buffer)) :=
  match validate e with
  | .error err => some (.error err)
  | .ok _ =>
    if e.header.compression_method = 0 then
      match buffer.copy_from_slice e.file_data with
      | none => none
      | some buffer =>
        let crc := crc32 e.file_data
        if crc ≠ e.header.crc32 then some (.error .Crc32Mismatch)
        else some (.ok (⟨e.header.file_name, e.header.uncompressed_size,
          e.header.compressed_size, crc, e.header.compression_method⟩, buffer))
    else if e.header.compression_method = 8 then
      match inflate e.file_data with
      | .error msg => some (.error (.Io msg))
      | .ok decompressed =>
        match buffer.copy_from_slice decompressed with
        | none => none
        | some buffer =>
          let crc := crc32 decompressed
          if crc ≠ e.header.crc32 then some (.error .Crc32Mismatch)
          else some (.ok (⟨e.header.file_name, e.header.uncompressed_size,
            e.header.compressed_size, crc, e.header.compression_method⟩, buffer))
    else some (.error (.UnsupportedMethod e.header.compression_method))

/-- src/src/zip/reader.rs:10 central-directory record signature. -/
def ZIP_CENTRAL_DIR_SIGNATURE : Nat := 0x02014b50

/-- `String::from_utf8_lossy` restricted to the ASCII byte sequences used
here (on which lossy UTF-8 decoding is the identity on code points). -/
def string_from_bytes (bs : List Nat) : String :=
  (bs.map Char.ofNat).asString

/-- src/src/zip/reader.rs:111-193 `ZipEntryIterator::next`: parses the
central-directory record at `current_offset` of the memory map, eagerly
copying the entry's `compressed_size` data bytes out of the map, and
returns the entry with the advanced offset.  The `is_valid` liveness flag
is true while the reader exists and is not modelled; all byte reads stay
in range for the inputs considered (out-of-range would panic). -/
def iter_next (mmap : List Nat) (current_offset : Nat) :
    Option (Except ZipError (ZipEntry × Nat)) :=
  if mmap.length ≤ current_offset then none
  else
    let data := mmap.drop current_offset
    if proc.read_u32_le data 0 ≠ ZIP_CENTRAL_DIR_SIGNATURE then
      some (.error (.Format "Invalid central directory header"))
    else
      let compression_method := proc.read_u16_le data 10
      let file_name_length := proc.read_u16_le data 28
      let extra_field_length := proc.read_u16_le data 30
      let file_comment_length := proc.read_u16_le data 32
      let local_header_offset := proc.read_u32_le data 42
      let compressed_size := proc.read_u32_le data 20
      let header : LocalFileHeader :=
        { version_needed := proc.read_u16_le data 6
          flags := proc.read_u16_le data 8
          compression_method := compression_method
          last_mod_time := proc.read_u16_le data 12
          last_mod_date := proc.read_u16_le data 14
          crc32 := proc.read_u32_le data 16
          compressed_size := compressed_size
          uncompressed_size := proc.read_u32_le data 24
          file_name := string_from_bytes ((data.drop 46).take file_name_length)
          extra_field := (data.drop (46 + file_name_length)).take extra_field_length }
      let file_data :=
        (mmap.drop (local_header_offset + 30 + file_name_length + extra_field_length)).take
          compressed_size
      some (.ok (⟨header, none, file_data⟩,
        current_offset + (46 + file_name_length + extra_field_length + file_comment_length)))

end zm

/-! ### The models crate (`models/file_info.rs`) -/

namespace models

/-- src/src/error.rs:5-42 `AnalysisError` (only the variant relevant to
`TryFrom<u16>` is carried; the conversion below never constructs it). -/
inductive AnalysisError where
  | Other (source : String) : AnalysisError
deriving DecidableEq

/-- src/src/models/file_info.rs:16-21 `CompressionMethod`. -/
inductive CompressionMethod where
  | Stored : CompressionMethod
  | Deflated : CompressionMethod
  | Other (m : Nat) : CompressionMethod
deriving DecidableEq

/-- src/src/models/file_info.rs:72-82 `TryFrom<u16> for CompressionMethod`
(total: every unknown code becomes `Ok(Other(m))`). -/
def CompressionMethod.try_from (value : Nat) :
    Except AnalysisError CompressionMethod :=
  if value = 0 then .ok .Stored
  else if value = 8 then .ok .Deflated
  else .ok (.Other value)

end models

/-! ### The report crate (`report/stats.rs`, `report/format.rs`) -/

namespace rep

/-- src/src/report/stats.rs:71-80 `Stats::compression_ratio`: percentage
`compressed / total * 100` (0 when `total` is 0), the `f64` arithmetic
rendered in exact rational arithmetic (exact on the values used below). -/
def compression_percentage (total compressed : Nat) : ℚ :=
  if total = 0 then 0 else (compressed : ℚ) / (total : ℚ) * 100

/-- src/src/report/format.rs:66-72: display name of a method code. -/
def method_name (m : Nat) : String :=
  if m = 0 then "Stored" else if m = 8 then "Deflated" else "Unknown"

/-- src/src/report/format.rs:16-83 `ReportFormatter::generate`.
`byte_display` stands for the external `byte_unit` pretty-printer,
`time_display` for the `{:.2}`-formatted seconds derived from the stored
millisecond duration, and `pct_display` for `{:.1}` float formatting —
all external formatting code, passed as parameters.  `file_types` and
`methods` are the `DashMap` iteration sequences (their order is internal
hash order, not determined by the recorded contents); `files` is the
`BTreeSet` ascending iteration. -/
def generate (byte_display : Nat → String) (time_display : Nat → String)
    (pct_display : ℚ → String)
    (total_size file_count duration compressed_size : Nat)
    (file_types : List (String × Nat)) (methods : List (Nat × Nat))
    (files : List String) : String :=
  let total := byte_display total_size
  "=== ZIP Analysis Report ===\n\n" ++
  "Total size: " ++ total ++ "\n" ++
  "Files analyzed: " ++ toString file_count ++ "\n" ++
  "Analysis time: " ++ time_display duration ++ "s\n\n" ++
  "Overall compression ratio: " ++
    pct_display (compression_percentage total_size compressed_size) ++ "%\n" ++
  "Total compressed: " ++ byte_display compressed_size ++ "\n" ++
  "Total uncompressed: " ++ total ++ "\n\n" ++
  "File types:\n" ++
  (file_types.foldl (fun acc e => acc ++ "  " ++ e.1 ++ ": " ++ toString e.2 ++ "\n") "") ++
  "\n" ++
  "Compression methods:\n" ++
  (methods.foldl (fun acc e => acc ++ "  " ++ method_name e.1 ++ ": " ++ toString e.2 ++ "\n") "") ++
  "\n" ++
  "Files (sorted alphabetically):\n" ++
  (files.foldl (fun acc f => acc ++ "  " ++ f ++ "\n") "")

end rep

/-- The spec's formula for the summary compression ratio, §6: `(1 −
total_compressed / total_stored) × 100` percent.  Stated from the spec's
words, for comparison with the implementations. -/
def spec_compression_formula (total compressed : Nat) : ℚ :=
  (1 - (compressed : ℚ) / (total : ℚ)) * 100

section ClaimsA

/-- Constant inflate witness function: decodes every stream to the empty
output (a legitimate instantiation of the quantified external decoder). -/
def inflate0 : List Nat → Except String (List Nat) := fun _ => .ok []

/-- Empty statistics state. -/
def stats0 : proc.Stats := ⟨0, 0, 0, [], [], []⟩

/-- The spec's scenario-1 store entry `hello.txt` (13 bytes,
CRC-32 `0xEC4AC3D0`). -/
def hello_entry : proc.ZipEntry :=
  ⟨"hello.txt", 13, 13, .Store, 0xEC4AC3D0, 0⟩

/-- Bytes of `Hello, World!`. -/
def hello_bytes : List Nat := [72, 101, 108, 108, 111, 44, 32, 87, 111, 114, 108, 100, 33]

/-- C1: in `Processor::process_entry` a Deflate entry is inflated (by the
external decoder) and checked: a decoder error yields the
decompression-failure error, an output-length mismatch with the claimed
`size` yields the size-mismatch error, a CRC-32 mismatch yields the
CRC-mismatch error, and only an entry passing all three checks is `Ok`. -/
theorem deflate_entry_checks (inflate : List Nat → Except String (List Nat))
    (stats : proc.Stats) (e : proc.ZipEntry) (data : List Nat)
    (hm : e.method = .Deflate) :
    (∀ msg, inflate data = .error msg →
      (proc.process_entry inflate stats e data).2 =
        .error (.Processing (proc.decompression_failed_msg e.name msg))) ∧
    (∀ out, inflate data = .ok out → out.length ≠ e.size →
      (proc.process_entry inflate stats e data).2 =
        .error (.Processing (proc.deflate_size_mismatch_msg e.name e.size out.length))) ∧
    (∀ out, inflate data = .ok out → out.length = e.size → crc32 out ≠ e.crc32 →
      (proc.process_entry inflate stats e data).2 =
        .error (.Processing (proc.crc_mismatch_msg e.name e.crc32 (crc32 out)))) ∧
    (∀ out, inflate data = .ok out → out.length = e.size → crc32 out = e.crc32 →
      (proc.process_entry inflate stats e data).2 = .ok ()) := by
  refine ⟨?_, ?_, ?_, ?_⟩
  · intro msg hi
    simp [proc.process_entry, hm, hi]
  · intro out hi hlen
    simp [proc.process_entry, hm, hi, hlen]
  · intro out hi hlen hcrc
    simp [proc.process_entry, hm, hi, hlen, hcrc]
  · intro out hi hlen hcrc
    simp [proc.process_entry, hm, hi, hlen, hcrc]

/-- C1 witness: a zero-length Deflate entry whose claimed CRC is the CRC of
the empty output is accepted by `process_entry`. -/
theorem deflate_entry_checks_witness :
    (proc.process_entry inflate0 stats0 ⟨"a.bin", 0, 2, .Deflate, 0, 0⟩ [72]).2 = .ok () :=
  (deflate_entry_checks inflate0 stats0 ⟨"a.bin", 0, 2, .Deflate, 0, 0⟩ [72]
    rfl).2.2.2 [] rfl rfl (by decide)

/-- C2: in `Processor::process_entry` a Store entry whose buffer holds
exactly `compressed_size` bytes succeeds iff `compressed_size` equals the
claimed `size` and the CRC-32 of the raw bytes equals the claimed CRC-32;
a size violation is reported as the size-mismatch error and a CRC
violation as the CRC-mismatch error. -/
theorem store_entry_checks (inflate : List Nat → Except String (List Nat))
    (stats : proc.Stats) (e : proc.ZipEntry) (data : List Nat)
    (hm : e.method = .Store) (hlen : data.length = e.compressed_size) :
    ((proc.process_entry inflate stats e data).2 = .ok () ↔
      (e.compressed_size = e.size ∧ crc32 data = e.crc32)) ∧
    (e.compressed_size ≠ e.size →
      (proc.process_entry inflate stats e data).2 =
        .error (.Processing (proc.store_size_mismatch_msg e.name e.size e.compressed_size))) ∧
    (e.compressed_size = e.size → crc32 data ≠ e.crc32 →
      (proc.process_entry inflate stats e data).2 =
        .error (.Processing (proc.crc_mismatch_msg e.name e.crc32 (crc32 data)))) := by
  refine ⟨?_, ?_, ?_⟩
  · constructor
    · intro hok
      by_cases hsz : data.length = e.size
      · by_cases hcrc : crc32 data = e.crc32
        · exact ⟨hlen ▸ hsz, hcrc⟩
        · simp [proc.process_entry, hm, hsz, hcrc] at hok
      · simp [proc.process_entry, hm, hsz] at hok
    · rintro ⟨hsz, hcrc⟩
      simp [proc.process_entry, hm, hlen ▸ hsz, hcrc]
  · intro hsz
    simp [proc.process_entry, hm, hlen, hsz]
  · intro hsz hcrc
    simp [proc.process_entry, hm, hlen, hsz, hcrc]

/-- C2 witness: the spec's scenario-1 entry (`hello.txt`, 13 bytes,
CRC `0xEC4AC3D0`) passes the Store checks. -/
theorem store_entry_checks_witness :
    (proc.process_entry inflate0 stats0 hello_entry hello_bytes).2 = .ok () :=
  ((store_entry_checks inflate0 stats0 hello_entry hello_bytes rfl
    (by decide)).1).mpr ⟨rfl, by decide⟩

/-- C4: `validate_size` rejects exactly the file lengths above
`MAX_SIZE` = 4 GiB with `SizeLimit` carrying the actual length; a 4 GiB
file is accepted and a 4 GiB + 1 file is rejected with
`SizeLimit 4294967297`. -/
theorem validate_size_limit :
    (∀ L, lzr.validate_size L = .error (.SizeLimit L) ↔ 4294967296 < L) ∧
    lzr.validate_size 4294967296 = .ok () ∧
    lzr.validate_size 4294967297 = .error (.SizeLimit 4294967297) := by
  refine ⟨?_, by rfl, by rfl⟩
  intro L
  by_cases h : 4294967296 < L
  · simp [lzr.validate_size, lzr.MAX_SIZE, h]
  · simp [lzr.validate_size, lzr.MAX_SIZE, h]

/-- C4 witness: instantiating the boundary facts of `validate_size_limit`
at 4 GiB and 4 GiB + 1. -/
theorem validate_size_limit_witness :
    lzr.validate_size 4294967297 = .error (.SizeLimit 4294967297) ∧
    lzr.validate_size 4294967296 = .ok () :=
  ⟨(validate_size_limit.1 4294967297).mpr (by decide), validate_size_limit.2.1⟩

end ClaimsA

section ClaimsB

/-- A 44-byte archive: a complete EOCD record at offset 0 whose declared
comment length is 22, followed by a 22-byte comment that embeds the EOCD
signature bytes at its start (offset 22) with a nonzero value (5) in the
position of the comment-length field. -/
def f3 : List Nat :=
  [80, 75, 5, 6, 0, 0, 0, 0, 0, 0, 0, 0, 0, 0, 0, 0, 0, 0, 0, 0, 22, 0,
   80, 75, 5, 6, 0, 0, 0, 0, 0, 0, 0, 0, 0, 0, 0, 0, 0, 0, 0, 0, 5, 0]

/-- Invariant of the locator loop: a successful return is the position of
a signature match, and every tail position scanned before it (larger
offsets, i.e. smaller loop indices down to the starting index) holds no
signature. -/
theorem find_eocd_loop_ok (file : List Nat) :
    ∀ (fuel i p : Nat), proc.find_eocd_loop file i fuel = .ok p →
      ∃ j, i ≤ j ∧ 22 + j ≤ file.length ∧ p = file.length - 22 - j ∧
        proc.read_u32_le file p = proc.END_OF_CENTRAL_DIR_SIGNATURE ∧
        ∀ k, i ≤ k → k < j →
          proc.read_u32_le file (file.length - 22 - k) ≠
            proc.END_OF_CENTRAL_DIR_SIGNATURE := by
  intro fuel
  induction fuel with
  | zero =>
    intro i p h
    simp [proc.find_eocd_loop] at h
  | succ m ih =>
    intro i p h
    simp only [proc.find_eocd_loop] at h
    by_cases hlen : file.length < 22 + i
    · simp [hlen] at h
    · by_cases hsig : proc.read_u32_le file (file.length - 22 - i) =
          proc.END_OF_CENTRAL_DIR_SIGNATURE
      · simp [hlen, hsig] at h
        exact ⟨i, le_refl i, by omega, h.symm, by rw [← h]; exact hsig,
          fun k hk1 hk2 => by omega⟩
      · simp [hlen, hsig] at h
        obtain ⟨j, hj1, hj2, hj3, hj4, hj5⟩ := ih (i + 1) p h
        refine ⟨j, by omega, hj2, hj3, hj4, fun k hk1 hk2 => ?_⟩
        by_cases hk : k = i
        · rw [hk]; exact hsig
        · exact hj5 k (by omega) hk2

/-- C3 counterexample: on `f3` the locator returns the signature embedded
in the comment (offset 22), whose declared comment-length field (5) does
not equal the 0 bytes that follow it, while the true EOCD record at
offset 0 (whose declared comment length 22 does equal the bytes following
it) is not selected.  The locator performs no comment-length
cross-check. -/
theorem eocd_comment_check_cex :
    proc.find_end_of_central_directory f3 = .ok 22 ∧
    proc.read_u16_le f3 (22 + 20) = 5 ∧
    f3.length - (22 + 22) = 0 ∧
    proc.read_u32_le f3 0 = proc.END_OF_CENTRAL_DIR_SIGNATURE ∧
    proc.read_u16_le f3 (0 + 20) = f3.length - (0 + 22) :=
  ⟨rfl, by decide, by decide, by decide, by decide⟩

/-- C3 amended: `find_end_of_central_directory` returns the **last**
(closest-to-end) offset at which the EOCD signature bytes occur, with no
comment-length cross-check: every strictly later in-range offset holds no
signature, and nothing about the comment-length field is examined. -/
theorem eocd_locator_selects_last (file : List Nat) (p : Nat)
    (h : proc.find_end_of_central_directory file = .ok p) :
    proc.read_u32_le file p = proc.END_OF_CENTRAL_DIR_SIGNATURE ∧
    p + 22 ≤ file.length ∧
    ∀ q, p < q → q + 22 ≤ file.length →
      proc.read_u32_le file q ≠ proc.END_OF_CENTRAL_DIR_SIGNATURE := by
  obtain ⟨j, _, hj2, hj3, hj4, hj5⟩ :=
    find_eocd_loop_ok file proc.MAX_COMMENT_LENGTH 0 p h
  refine ⟨hj4, by omega, ?_⟩
  intro q hq1 hq2 hsig
  exact hj5 (file.length - 22 - q) (Nat.zero_le _) (by omega)
    (by rw [show file.length - 22 - (file.length - 22 - q) = q by omega]; exact hsig)

/-- C3 witness: instantiating the amended theorem on `f3`: the selected
offset 22 carries the signature and no later in-range offset does. -/
theorem eocd_locator_selects_last_witness :
    proc.read_u32_le f3 22 = proc.END_OF_CENTRAL_DIR_SIGNATURE ∧
    ∀ q, 22 < q → q + 22 ≤ f3.length →
      proc.read_u32_le f3 q ≠ proc.END_OF_CENTRAL_DIR_SIGNATURE :=
  ⟨(eocd_locator_selects_last f3 22 rfl).1,
   (eocd_locator_selects_last f3 22 rfl).2.2⟩

/-- A 47-byte memory map holding one central-directory record: method 12
(BZip2), compressed and uncompressed size 2, name-length 1 (name `a`),
local-header offset 0. -/
def cd0 : List Nat :=
  [80, 75, 1, 2, 0, 0, 20, 0, 0, 0, 12, 0, 0, 0, 0, 0, 0, 0, 0, 0,
   2, 0, 0, 0, 2, 0, 0, 0, 1, 0, 0, 0, 0, 0, 0, 0, 0, 0, 0, 0, 0, 0,
   0, 0, 0, 0, 97]

/-- The entry descriptor the iterator produces from `cd0`. -/
def e12 : zm.ZipEntry :=
  ⟨⟨20, 0, 12, 0, 0, 0, 2, 2, "a", []⟩, none, [0, 0]⟩

/-- C5 counterexample: for a method-12 entry the central-directory
iterator eagerly reads the entry's 2 compressed bytes into `file_data`
(the bytes ARE read), and processing the entry returns the error
`UnsupportedMethod 12` — there is no `Skipped` result status in the
code. -/
theorem unsupported_method_reads_bytes_cex :
    zm.iter_next cd0 0 = some (.ok (e12, 47)) ∧
    e12.header.compression_method = 12 ∧
    e12.file_data = [0, 0] ∧
    models.CompressionMethod.try_from 12 = .ok (.Other 12) ∧
    zm.process inflate0 e12 (.Small []) = some (.error (.UnsupportedMethod 12)) :=
  ⟨rfl, rfl, rfl, rfl, rfl⟩

/-- C5 amended: a method outside {0, 8} still converts to a descriptor
method `Other(m)` (`CompressionMethod::try_from` is total), and
`ZipEntry::process` on such an entry returns the **error**
`UnsupportedMethod(m)` without touching its buffer; the iterator has
already read the entry's bytes when the descriptor was built. -/
theorem unsupported_method_amended (m : Nat) (h0 : m ≠ 0) (h8 : m ≠ 8) :
    models.CompressionMethod.try_from m = .ok (.Other m) ∧
    ∀ (inflate : List Nat → Except String (List Nat)) (e : zm.ZipEntry)
      (buffer : zm.Buffer),
      e.header.compression_method = m →
      zm.is_ascii e.header.file_name = true →
      e.header.uncompressed_size ≤ 0xFFFFFFFF →
      zm.process inflate e buffer = some (.error (.UnsupportedMethod m)) := by
  constructor
  · simp [models.CompressionMethod.try_from, h0, h8]
  · intro inflate e buffer hm ha hs
    have hv : zm.validate e = .error (.UnsupportedMethod m) := by
      simp [zm.validate, ha, hm, h0, h8, Nat.not_lt.mpr hs]
    simp [zm.process, hv, hm, h0, h8]

/-- C5 witness: instantiating the amended theorem at method 12 and the
concrete entry `e12`. -/
theorem unsupported_method_amended_witness :
    models.CompressionMethod.try_from 12 = .ok (.Other 12) ∧
    zm.process inflate0 e12 (.Small []) = some (.error (.UnsupportedMethod 12)) :=
  ⟨(unsupported_method_amended 12 (by decide) (by decide)).1,
   (unsupported_method_amended 12 (by decide) (by decide)).2 inflate0 e12
     (.Small []) rfl rfl (by decide)⟩

/-- A store entry whose ASCII name contains a NUL byte. -/
def eNul : zm.ZipEntry :=
  ⟨⟨20, 0, 0, 0, 0, 0, 0, 0, "a\x00b", []⟩, none, []⟩

/-- The processed result of `eNul`. -/
def peNul : zm.ProcessedEntry := ⟨"a\x00b", 0, 0, 0, 0⟩

/-- A store entry whose name contains a non-ASCII (but NUL-free)
character. -/
def eAcc : zm.ZipEntry :=
  ⟨⟨20, 0, 0, 0, 0, 0, 0, 0, "é", []⟩, none, []⟩

/-- C9 counterexample: a name containing NUL is ASCII, so `validate`
accepts it and the entry is processed to `Ok` with the name verbatim
(there is no `InvalidName` check or error anywhere), while the NUL-free
name `é` IS rejected, with `NonAsciiName`. -/
theorem nul_name_not_rejected_cex :
    ("a\x00b".data.any fun c => c.toNat = 0) = true ∧
    zm.process inflate0 eNul (.Small []) = some (.ok (peNul, .Small [])) ∧
    zm.validate eAcc = .error .NonAsciiName :=
  ⟨by decide, rfl, rfl⟩

/-- C9 amended: `validate` rejects exactly the non-ASCII names (with
`NonAsciiName`); every ASCII name — including names containing NUL, path
separators or `..` — passes the name check, and a processed entry carries
its name verbatim. -/
theorem name_validation_amended (e : zm.ZipEntry) :
    (zm.is_ascii e.header.file_name = false →
      zm.validate e = .error .NonAsciiName) ∧
    (zm.is_ascii e.header.file_name = true →
      e.header.uncompressed_size ≤ 0xFFFFFFFF →
      (e.header.compression_method = 0 ∨ e.header.compression_method = 8) →
      zm.validate e = .ok ()) ∧
    ∀ (inflate : List Nat → Except String (List Nat)) (buffer : zm.Buffer)
      (pe : zm.ProcessedEntry) (buf2 : zm.Buffer),
      zm.process inflate e buffer = some (.ok (pe, buf2)) →
      pe.name = e.header.file_name := by
  refine ⟨?_, ?_, ?_⟩
  · intro ha
    simp [zm.validate, ha]
  · intro ha hs hm
    simp [zm.validate, ha, Nat.not_lt.mpr hs, hm]
  · intro inflate buffer pe buf2 h
    match hv : zm.validate e with
    | .error err => simp [zm.process, hv] at h
    | .ok _ =>
      by_cases h0 : e.header.compression_method = 0
      · match hc : zm.Buffer.copy_from_slice buffer e.file_data with
        | none => simp [zm.process, hv, h0, hc] at h
        | some b =>
          by_cases hcrc : crc32 e.file_data ≠ e.header.crc32
          · simp [zm.process, hv, h0, hc, hcrc] at h
          · simp [zm.process, hv, h0, hc, hcrc] at h
            obtain ⟨h1, -⟩ := h
            cases h1
            rfl
      · by_cases h8 : e.header.compression_method = 8
        · match hi : inflate e.file_data with
          | .error msg => simp [zm.process, hv, h0, h8, hi] at h
          | .ok dec =>
            match hc : zm.Buffer.copy_from_slice buffer dec with
            | none => simp [zm.process, hv, h0, h8, hi, hc] at h
            | some b =>
              by_cases hcrc : crc32 dec ≠ e.header.crc32
              · simp [zm.process, hv, h0, h8, hi, hc, hcrc] at h
              · simp [zm.process, hv, h0, h8, hi, hc, hcrc] at h
                obtain ⟨h1, -⟩ := h
                cases h1
                rfl
        · simp [zm.process, hv, h0, h8] at h

/-- C9 witness: instantiating the amended theorem on the NUL-named entry:
its name passes validation and its processed result carries the NUL name
verbatim. -/
theorem name_validation_amended_witness :
    zm.validate eNul = .ok () ∧ peNul.name = eNul.header.file_name :=
  ⟨(name_validation_amended eNul).2.1 rfl (by decide) (Or.inl rfl),
   (name_validation_amended eNul).2.2 inflate0 (.Small []) peNul (.Small []) rfl⟩

/-- C6 (code defect): `ReportFormatter::generate` emits the method
histogram in `DashMap` iteration order.  Two iteration orders of the same
histogram contents {0 ↦ 1, 8 ↦ 1} — both orders occur depending on the
run's hash seed — produce different report bytes, so the report is
neither ordered by numeric method code nor byte-identical across runs. -/
theorem report_depends_on_map_order :
    rep.generate (fun _ => "B") (fun _ => "T") (fun _ => "P") 13 1 5 13
      [] [(0, 1), (8, 1)] ["hello.txt"] ≠
    rep.generate (fun _ => "B") (fun _ => "T") (fun _ => "P") 13 1 5 13
      [] [(8, 1), (0, 1)] ["hello.txt"] := by decide

/-- C7 counterexample: on totals stored = 4, compressed = 1 the code's
ratio is 25 (%), not the spec formula's 75 (%): both `compression_ratio`
implementations compute `compressed / stored`, not
`1 − compressed / stored`. -/
theorem compression_formula_cex :
    rep.compression_percentage 4 1 = 25 ∧
    spec_compression_formula 4 1 = 75 ∧
    rep.compression_percentage 4 1 ≠ spec_compression_formula 4 1 ∧
    proc.stats_compr_percentage 4 1 * 100 = 25 := by
  refine ⟨?_, ?_, ?_, ?_⟩ <;>
    norm_num [rep.compression_percentage, spec_compression_formula,
      proc.stats_compr_percentage]

/-- C7 amended: for positive stored totals, the ratio both implementations
print is `compressed / stored × 100` — exactly the complement (100 minus)
of the spec's `(1 − compressed / stored) × 100`. -/
theorem compression_formula_amended (total compressed : Nat) (h : 0 < total) :
    rep.compression_percentage total compressed =
      100 - spec_compression_formula total compressed ∧
    proc.stats_compr_percentage total compressed * 100 =
      100 - spec_compression_formula total compressed := by
  have h0 : total ≠ 0 := by omega
  have ht : (total : ℚ) ≠ 0 := Nat.cast_ne_zero.mpr h0
  constructor <;>
  · simp only [rep.compression_percentage, proc.stats_compr_percentage,
      spec_compression_formula, if_neg h0]
    field_simp
    ring

/-- C7 witness: the amended relation instantiated at stored = 4,
compressed = 1. -/
theorem compression_formula_amended_witness :
    rep.compression_percentage 4 1 = 100 - spec_compression_formula 4 1 :=
  (compression_formula_amended 4 1 (by decide)).1

/-- A `buffer.rs` pool with an empty free list and a 1024-byte budget. -/
def bp0 : proc.BufferPool := ⟨[], 0, 1024⟩

/-- A `buffer/pool.rs` pool whose small and medium tiers are empty. -/
def zp0 : zm.BufferPool := ⟨[], [], [], zm.BufferConfig.standard, 0⟩

/-- C8 counterexample: with no pooled buffer and the budget exceeded,
`get_buffer` returns the `Memory` error immediately, and with an empty
small tier `acquire` returns `NoBufferAvailable` immediately — neither
waits, and no `Cancelled` error exists in either error type. -/
theorem acquire_returns_error_cex :
    proc.get_buffer bp0 2048 =
      .error (.Memory "Buffer pool size limit reached: 0 + 2048 > 1024") ∧
    zm.BufferPool.acquire zp0 1024 = .error .NoBufferAvailable :=
  ⟨rfl, rfl⟩

/-- `npot_from` only stops at a value at least `n`, given enough doubling
fuel. -/
theorem le_npot_from (n : Nat) :
    ∀ (fuel p : Nat), n ≤ 2 ^ fuel * p → n ≤ proc.npot_from n fuel p := by
  intro fuel
  induction fuel with
  | zero =>
    intro p h
    simpa [proc.npot_from] using h
  | succ m ih =>
    intro p h
    rw [proc.npot_from]
    by_cases hp : n ≤ p
    · simp [hp]
    · simp only [if_neg hp]
      apply ih
      have : 2 ^ m * (2 * p) = 2 ^ (m + 1) * p := by ring
      omega

/-- `next_power_of_two n` is at least `n`. -/
theorem le_next_power_of_two (n : Nat) : n ≤ proc.next_power_of_two n := by
  apply le_npot_from
  have := Nat.lt_two_pow n
  omega

/-- A tiny tier configuration (small capacity 4, medium capacity 8) for
exercising the tier success branches. -/
def cfg1 : zm.BufferConfig := ⟨4, 8, 1, 1⟩

/-- A well-formed `buffer/pool.rs` pool with one free small and one free
medium buffer under `cfg1`. -/
def zp2 : zm.BufferPool :=
  ⟨[[0, 0, 0, 0]], [[0, 0, 0, 0, 0, 0, 0, 0]], [], cfg1, 0⟩

/-- C8 amended: both acquire paths hand out a buffer of capacity ≥ n when
one is available and otherwise return an error **immediately**.  For
`buffer.rs`'s `get_buffer`: a pooled buffer of the right class is popped,
a fresh allocation of capacity `next_power_of_two n ≥ n` is made while the
budget permits, and otherwise the `Memory` error is returned.  For
`buffer/pool.rs`'s `acquire`: a free slot in the required (small or
medium) tier yields that tier's buffer — of capacity ≥ n for every
well-formed pool — and an empty required tier yields `NoBufferAvailable`
immediately.  Neither function waits and neither has a `Cancelled`
error. -/
theorem acquire_no_wait_amended (p : proc.BufferPool) (p2 : zm.BufferPool)
    (n : Nat) :
    n ≤ proc.next_power_of_two n ∧
    (∀ c, proc.lookup_count p.buffers (proc.next_power_of_two n) = some (c + 1) →
      proc.get_buffer p n = .ok (proc.next_power_of_two n,
        { p with buffers := proc.set_count p.buffers (proc.next_power_of_two n) c })) ∧
    (proc.lookup_count p.buffers (proc.next_power_of_two n) = none ∨
      proc.lookup_count p.buffers (proc.next_power_of_two n) = some 0 →
      (p.total_size + proc.next_power_of_two n ≤ p.max_size →
        proc.get_buffer p n = .ok (proc.next_power_of_two n,
          { p with total_size := p.total_size + proc.next_power_of_two n })) ∧
      (p.max_size < p.total_size + proc.next_power_of_two n →
        proc.get_buffer p n = .error (.Memory
          (proc.pool_limit_msg p.total_size (proc.next_power_of_two n) p.max_size)))) ∧
    (n ≤ p2.config.small_size →
      (p2.small_pool = [] →
        zm.BufferPool.acquire p2 n = .error .NoBufferAvailable) ∧
      (∀ b rest, p2.small_pool = b :: rest →
        zm.BufferPool.acquire p2 n = .ok (.Small b, { p2 with small_pool := rest }) ∧
        (p2.well_formed → n ≤ b.length))) ∧
    (p2.config.small_size < n → n ≤ p2.config.medium_size →
      (p2.medium_pool = [] →
        zm.BufferPool.acquire p2 n = .error .NoBufferAvailable) ∧
      (∀ b rest, p2.medium_pool = b :: rest →
        zm.BufferPool.acquire p2 n = .ok (.Medium b, { p2 with medium_pool := rest }) ∧
        (p2.well_formed → n ≤ b.length))) := by
  refine ⟨le_next_power_of_two n, ?_, ?_, ?_, ?_⟩
  · intro c hc
    simp [proc.get_buffer, hc]
  · intro hmiss
    constructor
    · intro hfits
      rcases hmiss with hm | hm <;>
        simp [proc.get_buffer, hm, Nat.not_lt.mpr hfits]
    · intro hover
      rcases hmiss with hm | hm <;>
        simp [proc.get_buffer, hm, hover]
  · intro hn
    constructor
    · intro hempty
      simp [zm.BufferPool.acquire, hn, hempty]
    · intro b rest hpool
      refine ⟨by simp [zm.BufferPool.acquire, hn, hpool], fun hwf => ?_⟩
      have hb := hwf.1 b (by rw [hpool]; exact List.mem_cons_self b rest)
      omega
  · intro hsm hn
    have hns : ¬ n ≤ p2.config.small_size := by omega
    constructor
    · intro hempty
      simp [zm.BufferPool.acquire, hns, hn, hempty]
    · intro b rest hpool
      refine ⟨by simp [zm.BufferPool.acquire, hns, hn, hpool], fun hwf => ?_⟩
      have hb := hwf.2 b (by rw [hpool]; exact List.mem_cons_self b rest)
      omega

/-- C8 witness: the amended theorem instantiated at concrete pools — the
over-budget `get_buffer` error, the empty-tier `acquire` error, and the
small- and medium-tier success branches with capacity ≥ n on the
well-formed pool `zp2`. -/
theorem acquire_no_wait_amended_witness :
    proc.get_buffer bp0 2048 = .error (.Memory (proc.pool_limit_msg 0 2048 1024)) ∧
    zm.BufferPool.acquire zp0 2048 = .error .NoBufferAvailable ∧
    zm.BufferPool.acquire zp2 3 =
      .ok (.Small [0, 0, 0, 0], ⟨[], [[0, 0, 0, 0, 0, 0, 0, 0]], [], cfg1, 0⟩) ∧
    3 ≤ [0, 0, 0, 0].length ∧
    zm.BufferPool.acquire zp2 7 =
      .ok (.Medium [0, 0, 0, 0, 0, 0, 0, 0], ⟨[[0, 0, 0, 0]], [], [], cfg1, 0⟩) ∧
    7 ≤ [0, 0, 0, 0, 0, 0, 0, 0].length := by
  refine ⟨?_, ?_, ?_, ?_, ?_, ?_⟩
  · exact ((acquire_no_wait_amended bp0 zp0 2048).2.2.1 (Or.inl rfl)).2 (by decide)
  · exact ((acquire_no_wait_amended bp0 zp0 2048).2.2.2.1 (by decide)).1 rfl
  · exact (((acquire_no_wait_amended bp0 zp2 3).2.2.2.1 (by decide)).2
      [0, 0, 0, 0] [] rfl).1
  · exact (((acquire_no_wait_amended bp0 zp2 3).2.2.2.1 (by decide)).2
      [0, 0, 0, 0] [] rfl).2
      (by constructor <;> intro b hb <;> simp [zp2, cfg1] at hb ⊢ <;> simp [hb])
  · exact (((acquire_no_wait_amended bp0 zp2 7).2.2.2.2 (by decide) (by decide)).2
      [0, 0, 0, 0, 0, 0, 0, 0] [] rfl).1
  · exact (((acquire_no_wait_amended bp0 zp2 7).2.2.2.2 (by decide) (by decide)).2
      [0, 0, 0, 0, 0, 0, 0, 0] [] rfl).2
      (by constructor <;> intro b hb <;> simp [zp2, cfg1] at hb ⊢ <;> simp [hb])

/-- C10: a request larger than both tier capacities yields a
`Buffer::Large` lease whose `as_slice`, `as_mut_slice` and
`copy_from_slice` all panic (`unimplemented!`, modelled `none`), so no
`ZipEntry::process` call writing through such a buffer can return
success. -/
theorem large_buffer_unusable (p : zm.BufferPool) (n : Nat)
    (hs : p.config.small_size < n) (hm : p.config.medium_size < n) :
    zm.BufferPool.acquire p n = .ok (.Large p.next_map_id,
      { p with large_maps := (p.next_map_id, n) :: p.large_maps
               next_map_id := p.next_map_id + 1 }) ∧
    zm.Buffer.as_slice (.Large p.next_map_id) = none ∧
    zm.Buffer.as_mut_slice (.Large p.next_map_id) = none ∧
    (∀ d, zm.Buffer.copy_from_slice (.Large p.next_map_id) d = none) ∧
    ∀ (inflate : List Nat → Except String (List Nat)) (e : zm.ZipEntry)
      (r : zm.ProcessedEntry × zm.Buffer),
      zm.process inflate e (.Large p.next_map_id) ≠ some (.ok r) := by
  refine ⟨?_, rfl, rfl, fun d => rfl, ?_⟩
  · simp [zm.BufferPool.acquire, Nat.not_le.mpr hs, Nat.not_le.mpr hm]
  · intro inflate e r h
    match hv : zm.validate e with
    | .error err => simp [zm.process, hv] at h
    | .ok _ =>
      by_cases h0 : e.header.compression_method = 0
      · simp [zm.process, hv, h0, zm.Buffer.copy_from_slice] at h
      · by_cases h8 : e.header.compression_method = 8
        · match hi : inflate e.file_data with
          | .error msg => simp [zm.process, hv, h0, h8, hi] at h
          | .ok dec => simp [zm.process, hv, h0, h8, hi, zm.Buffer.copy_from_slice] at h
        · simp [zm.process, hv, h0, h8] at h

/-- C10 witness: a 10 MiB request on a default-configured pool yields the
unusable `Large` lease. -/
theorem large_buffer_unusable_witness :
    zm.BufferPool.acquire zp0 10485760 =
      .ok (.Large 0, ⟨[], [], [(0, 10485760)], zm.BufferConfig.standard, 1⟩) ∧
    zm.Buffer.as_slice (.Large 0) = none :=
  ⟨(large_buffer_unusable zp0 10485760 (by decide) (by decide)).1,
   (large_buffer_unusable zp0 10485760 (by decide) (by decide)).2.1⟩

end ClaimsB
